import Mathlib

/-!
Verification of the Ghana tax calculator (src/src/App.tsx, which also
contains the content of services/taxService.ts).

The engine works on JavaScript numbers; here it is embedded over `ℚ`
(exact arithmetic).  Fields and control flow follow the TypeScript
source line by line; the `async` fetch with `try`/`catch` is embedded as
a pure function over an explicit outcome type describing what the
external service did.
-/

/-- Source `interface TaxBracket`: `limit : number | null` (`null` means
"and above"), `rate : number`. -/
structure TaxBracket where
  limit : Option ℚ
  rate : ℚ
deriving DecidableEq

/-- Source `interface TaxRates`. -/
structure TaxRates where
  ssnitRate : ℚ
  brackets : List TaxBracket
  year : String
  source : Option String := none
deriving DecidableEq

/-- Source `DEFAULT_GHANA_TAX_RATES` constant (no `source` field set). -/
def DEFAULT_GHANA_TAX_RATES : TaxRates :=
  { ssnitRate := 0.055
  , year := "2024/2025"
  , brackets :=
      [ { limit := some 490, rate := 0 }
      , { limit := some 110, rate := 0.05 }
      , { limit := some 130, rate := 0.10 }
      , { limit := some 3160, rate := 0.175 }
      , { limit := some 16110, rate := 0.25 }
      , { limit := some 45000, rate := 0.30 }
      , { limit := none, rate := 0.35 } ]
  , source := none }

/-- The breakdown label built by the source:
`limit === null ? "Above previous" : "Next ${limit}"`. -/
inductive BracketLabel where
  | abovePrevious : BracketLabel
  | next : ℚ → BracketLabel
deriving DecidableEq

/-- One entry of the `breakdown` array pushed by `calculateTax`. -/
structure BreakdownEntry where
  bracket : BracketLabel
  amount : ℚ
  tax : ℚ
deriving DecidableEq

/-- The object returned by `calculateTax`. -/
structure TaxResult where
  grossIncome : ℚ
  ssnit : ℚ
  taxableIncome : ℚ
  totalTax : ℚ
  netIncome : ℚ
  breakdown : List BreakdownEntry
  ratesUsed : TaxRates
deriving DecidableEq

/-- Source lines 375-380: `amountInThisBracket` is the remaining taxable
income when the bracket is unbounded, otherwise
`Math.min(remainingTaxable, limit)`. -/
def amountIn (b : TaxBracket) (remainingTaxable : ℚ) : ℚ :=
  match b.limit with
  | none => remainingTaxable
  | some limit => min remainingTaxable limit

/-- Source line 386: label of the breakdown entry for a bracket. -/
def labelOf (b : TaxBracket) : BracketLabel :=
  match b.limit with
  | none => .abovePrevious
  | some limit => .next limit

/-- The `for` loop of `calculateTax` (source lines 368-392), with the
mutable `remainingTaxable`, `totalTax` and `breakdown` threaded as
arguments; `break` on `remainingTaxable <= 0` stops the recursion. -/
def taxLoop : List TaxBracket → ℚ → ℚ → List BreakdownEntry →
    ℚ × List BreakdownEntry
  | [], _, totalTax, breakdown => (totalTax, breakdown)
  | b :: rest, remainingTaxable, totalTax, breakdown =>
    if remainingTaxable ≤ 0 then (totalTax, breakdown)
    else
      let amountInThisBracket := amountIn b remainingTaxable
      let taxForThisBracket := amountInThisBracket * b.rate
      taxLoop rest (remainingTaxable - amountInThisBracket)
        (totalTax + taxForThisBracket)
        (breakdown ++ [{ bracket := labelOf b
                       , amount := amountInThisBracket
                       , tax := taxForThisBracket }])

/-- Source `calculateTax` (lines 360-405). -/
def calculateTax (grossIncome : ℚ) (rates : TaxRates) : TaxResult :=
  let ssnit := grossIncome * rates.ssnitRate
  let taxableIncome := grossIncome - ssnit
  let r := taxLoop rates.brackets taxableIncome 0 []
  { grossIncome := grossIncome
  , ssnit := ssnit
  , taxableIncome := taxableIncome
  , totalTax := r.1
  , netIncome := taxableIncome - r.1
  , breakdown := r.2
  , ratesUsed := rates }

/-- Source lines 43-47, the `results` memo of the presentation layer:
`parseFloat(income) || 0` (an unparseable input, `none` here, becomes 0;
on numbers `|| 0` only rewrites the falsy 0 to itself), divided by 12
when the annual toggle is set. -/
def results (income : Option ℚ) (isAnnual : Bool) (rates : TaxRates) :
    TaxResult :=
  let numIncome := income.getD 0
  let monthlyIncome := if isAnnual then numIncome / 12 else numIncome
  calculateTax monthlyIncome rates

/-- Shape of the JSON object `fetchLatestTaxRates` parses from the
external service: each field may be absent (`none`).  `brackets = none`
covers both an absent field and a non-array value
(`data.brackets && Array.isArray(data.brackets)` fails). -/
structure GeminiData where
  ssnitRate : Option ℚ
  year : Option String
  brackets : Option (List TaxBracket)
deriving DecidableEq

/-- What the external call did: the client library threw (`error`), the
response text failed `JSON.parse` (`success none`), or parsing produced
a `GeminiData` object (`success (some data)`). -/
inductive FetchOutcome where
  | error : FetchOutcome
  | success : Option GeminiData → FetchOutcome

/-- Source `fetchLatestTaxRates` (lines 329-358), as a pure function of
the configured credential (`process.env.GEMINI_API_KEY`; `!apiKey` is
true for both a missing and an empty string) and the service outcome.
The `try`/`catch` that falls back to `DEFAULT_GHANA_TAX_RATES` is the
`error` and `success none` branches; `data.ssnitRate || 0.055` and
`data.year || "2025"` replace absent or falsy values by the defaults. -/
def fetchLatestTaxRates (apiKey : Option String) (outcome : FetchOutcome) :
    TaxRates :=
  match apiKey with
  | none => DEFAULT_GHANA_TAX_RATES
  | some key =>
    if key = "" then DEFAULT_GHANA_TAX_RATES
    else
      match outcome with
      | .error => DEFAULT_GHANA_TAX_RATES
      | .success none => DEFAULT_GHANA_TAX_RATES
      | .success (some data) =>
        match data.brackets with
        | none => DEFAULT_GHANA_TAX_RATES
        | some bs =>
          { ssnitRate :=
              match data.ssnitRate with
              | none => 0.055
              | some r => if r = 0 then 0.055 else r
          , year :=
              match data.year with
              | none => "2025"
              | some y => if y = "" then "2025" else y
          , brackets := bs
          , source := some "Gemini Live Search" }

/-- Total tax produced by the bracket loop, written without the
accumulator (proved equal to `taxLoop` below). -/
def taxOf : List TaxBracket → ℚ → ℚ
  | [], _ => 0
  | b :: rest, remainingTaxable =>
    if remainingTaxable ≤ 0 then 0
    else
      let a := amountIn b remainingTaxable
      a * b.rate + taxOf rest (remainingTaxable - a)

/-- Breakdown entries produced by the bracket loop, written without the
accumulator (proved equal to `taxLoop` below). -/
def entriesOf : List TaxBracket → ℚ → List BreakdownEntry
  | [], _ => []
  | b :: rest, remainingTaxable =>
    if remainingTaxable ≤ 0 then []
    else
      let a := amountIn b remainingTaxable
      { bracket := labelOf b, amount := a, tax := a * b.rate } ::
        entriesOf rest (remainingTaxable - a)

theorem taxLoop_eq (bs : List TaxBracket) :
    ∀ (t acc : ℚ) (es : List BreakdownEntry),
      taxLoop bs t acc es = (acc + taxOf bs t, es ++ entriesOf bs t) := by
  induction bs with
  | nil => intro t acc es; simp [taxLoop, taxOf, entriesOf]
  | cons b rest ih =>
    intro t acc es
    by_cases h : t ≤ 0
    · simp [taxLoop, taxOf, entriesOf, h]
    · simp only [taxLoop, taxOf, entriesOf, h, if_neg, ite_false]
      rw [ih]
      simp [add_assoc]

theorem calculateTax_ssnit (g : ℚ) (T : TaxRates) :
    (calculateTax g T).ssnit = g * T.ssnitRate := rfl

theorem calculateTax_gross (g : ℚ) (T : TaxRates) :
    (calculateTax g T).grossIncome = g := rfl

theorem calculateTax_taxable (g : ℚ) (T : TaxRates) :
    (calculateTax g T).taxableIncome = g - g * T.ssnitRate := rfl

theorem calculateTax_totalTax (g : ℚ) (T : TaxRates) :
    (calculateTax g T).totalTax = taxOf T.brackets (g - g * T.ssnitRate) := by
  simp [calculateTax, taxLoop_eq]

theorem calculateTax_net (g : ℚ) (T : TaxRates) :
    (calculateTax g T).netIncome =
      (g - g * T.ssnitRate) - taxOf T.brackets (g - g * T.ssnitRate) := by
  simp [calculateTax, taxLoop_eq]

theorem calculateTax_breakdown (g : ℚ) (T : TaxRates) :
    (calculateTax g T).breakdown =
      entriesOf T.brackets (g - g * T.ssnitRate) := by
  simp [calculateTax, taxLoop_eq]

/-- Validity of a rate table as the claims state it: non-empty bracket
list, unbounded last bracket, all rates and the mandatory rate in
[0,1]. -/
def validRateTable (T : TaxRates) : Prop :=
  T.brackets ≠ [] ∧
  T.brackets.getLast?.all (fun b => b.limit.isNone) = true ∧
  (∀ b ∈ T.brackets, 0 ≤ b.rate ∧ b.rate ≤ 1) ∧
  0 ≤ T.ssnitRate ∧ T.ssnitRate ≤ 1

instance (T : TaxRates) : Decidable (validRateTable T) := by
  unfold validRateTable; infer_instance

/-- Every finite bracket limit in the list is non-negative. -/
def nonnegLimits (bs : List TaxBracket) : Prop :=
  ∀ b ∈ bs, b.limit.all (fun l => decide (0 ≤ l)) = true

/-- Every bracket limit in the list is finite (not `null`). -/
def allFinite (bs : List TaxBracket) : Prop :=
  ∀ b ∈ bs, b.limit.isSome = true

/-- Sum of the (finite) bracket limits, `null` counting as 0. -/
def sumLimits (bs : List TaxBracket) : ℚ :=
  (bs.map (fun b => b.limit.getD 0)).sum

/-- Sum of limit times rate over the brackets, `null` counting as 0. -/
def sumBracketTax (bs : List TaxBracket) : ℚ :=
  (bs.map (fun b => b.limit.getD 0 * b.rate)).sum

/-- Breakdown entry a full-width consumption of a finite bracket would
produce. -/
def expectedEntry (b : TaxBracket) : BreakdownEntry :=
  { bracket := labelOf b
  , amount := b.limit.getD 0
  , tax := b.limit.getD 0 * b.rate }

/-- One breakdown entry of the spec's reference algorithm (labels are
left out: the spec leaves the label text open). -/
structure SpecEntry where
  amountInBracket : ℚ
  bracketTax : ℚ
deriving DecidableEq

/-- The spec's Step 3, transcribed from its words: iterate the brackets
in order maintaining `remaining`; stop as soon as `remaining <= 0` with
no entries for unreached brackets; `amountInBracket = remaining` if the
bracket is unbounded else `min(remaining, bracket.limit)`;
`bracketTax = amountInBracket * rate`. -/
def specSteps : List TaxBracket → ℚ → List SpecEntry
  | [], _ => []
  | b :: rest, remaining =>
    if remaining ≤ 0 then []
    else
      let amountInBracket :=
        match b.limit with
        | none => remaining
        | some limit => min remaining limit
      { amountInBracket := amountInBracket
      , bracketTax := amountInBracket * b.rate } ::
        specSteps rest (remaining - amountInBracket)

/-- Result of the spec's Step 1-4 reference algorithm. -/
structure SpecResult where
  mandatoryDeduction : ℚ
  taxableIncome : ℚ
  totalTax : ℚ
  netIncome : ℚ
  breakdown : List SpecEntry
deriving DecidableEq

/-- The spec's reference algorithm, transcribed from its words: Step 1
`mandatoryDeduction = grossIncome * mandatoryRate`; Step 2
`taxableIncome = grossIncome - mandatoryDeduction`; Step 3 the bracket
consumption (`specSteps`), `totalTax` accumulating every `bracketTax`;
Step 4 `netIncome = taxableIncome - totalTax`. -/
def specCompute (grossIncome : ℚ) (T : TaxRates) : SpecResult :=
  let mandatoryDeduction := grossIncome * T.ssnitRate
  let taxableIncome := grossIncome - mandatoryDeduction
  let breakdown := specSteps T.brackets taxableIncome
  let totalTax := (breakdown.map SpecEntry.bracketTax).sum
  { mandatoryDeduction := mandatoryDeduction
  , taxableIncome := taxableIncome
  , totalTax := totalTax
  , netIncome := taxableIncome - totalTax
  , breakdown := breakdown }

theorem taxOf_nonpos (bs : List TaxBracket) {t : ℚ} (h : t ≤ 0) :
    taxOf bs t = 0 := by
  cases bs with
  | nil => simp [taxOf]
  | cons b rest => simp [taxOf, h]

theorem entriesOf_nonpos (bs : List TaxBracket) {t : ℚ} (h : t ≤ 0) :
    entriesOf bs t = [] := by
  cases bs with
  | nil => simp [entriesOf]
  | cons b rest => simp [entriesOf, h]

theorem nonnegLimits_some {bs : List TaxBracket} {b : TaxBracket} {l : ℚ}
    (h : nonnegLimits bs) (hb : b ∈ bs) (hl : b.limit = some l) : 0 ≤ l := by
  have := h b hb
  rw [hl] at this
  simpa [Option.all] using this

theorem amountIn_nonneg {bs : List TaxBracket} {b : TaxBracket}
    (h : nonnegLimits bs) (hb : b ∈ bs) {t : ℚ} (ht : 0 < t) :
    0 ≤ amountIn b t := by
  cases hlim : b.limit with
  | none => simpa [amountIn, hlim] using le_of_lt ht
  | some l =>
    have hl := nonnegLimits_some h hb hlim
    simp only [amountIn, hlim]
    exact le_min (le_of_lt ht) hl

theorem amountIn_le {b : TaxBracket} {t : ℚ} : amountIn b t ≤ t := by
  cases hlim : b.limit with
  | none => simp [amountIn, hlim]
  | some l => simp only [amountIn, hlim]; exact min_le_left _ _

theorem taxOf_le {bs : List TaxBracket}
    (hr : ∀ b ∈ bs, 0 ≤ b.rate ∧ b.rate ≤ 1) (hl : nonnegLimits bs) :
    ∀ {t : ℚ}, 0 < t → taxOf bs t ≤ t := by
  induction bs with
  | nil => intro t ht; simp [taxOf]; exact le_of_lt ht
  | cons b rest ih =>
    intro t ht
    have hnot : ¬ t ≤ 0 := not_le.mpr ht
    simp only [taxOf, hnot, ite_false]
    have ha0 : 0 ≤ amountIn b t :=
      amountIn_nonneg hl (List.mem_cons_self b rest) ht
    have hat : amountIn b t ≤ t := amountIn_le
    have hrb := hr b (List.mem_cons_self b rest)
    have har : amountIn b t * b.rate ≤ amountIn b t :=
      mul_le_of_le_one_right ha0 hrb.2
    have hrest : ∀ b' ∈ rest, 0 ≤ b'.rate ∧ b'.rate ≤ 1 :=
      fun b' hb' => hr b' (List.mem_cons_of_mem b hb')
    have hlrest : nonnegLimits rest :=
      fun b' hb' => hl b' (List.mem_cons_of_mem b hb')
    by_cases hta : t - amountIn b t ≤ 0
    · rw [taxOf_nonpos rest hta]
      linarith
    · have := ih hrest hlrest (not_le.mp hta)
      linarith

theorem sub_min_mono {t1 t2 l : ℚ} (h : t1 ≤ t2) :
    t1 - min t1 l ≤ t2 - min t2 l := by
  rcases le_total t1 l with h1 | h1 <;> rcases le_total t2 l with h2 | h2 <;>
    simp [min_eq_left, min_eq_right, h1, h2] <;> linarith

/-- Net-of-tax is weakly monotone in taxable income when all rates lie
in [0,1] and all finite limits are non-negative. -/
theorem netOfTax_mono {bs : List TaxBracket}
    (hr : ∀ b ∈ bs, 0 ≤ b.rate ∧ b.rate ≤ 1) (hl : nonnegLimits bs) :
    ∀ {t1 t2 : ℚ}, t1 ≤ t2 → t1 - taxOf bs t1 ≤ t2 - taxOf bs t2 := by
  induction bs with
  | nil => intro t1 t2 h12; simpa [taxOf] using h12
  | cons b rest ih =>
    intro t1 t2 h12
    have hrest : ∀ b' ∈ rest, 0 ≤ b'.rate ∧ b'.rate ≤ 1 :=
      fun b' hb' => hr b' (List.mem_cons_of_mem b hb')
    have hlrest : nonnegLimits rest :=
      fun b' hb' => hl b' (List.mem_cons_of_mem b hb')
    have hrb := hr b (List.mem_cons_self b rest)
    rcases le_or_lt t2 0 with h2 | h2
    · rw [taxOf_nonpos _ (le_trans h12 h2), taxOf_nonpos _ h2]
      simpa using h12
    · rcases le_or_lt t1 0 with h1 | h1
      · rw [taxOf_nonpos _ h1]
        have := taxOf_le hr hl h2
        linarith
      · have hn1 : ¬ t1 ≤ 0 := not_le.mpr h1
        have hn2 : ¬ t2 ≤ 0 := not_le.mpr h2
        simp only [taxOf, hn1, hn2, ite_false]
        cases hlim : b.limit with
        | none =>
          simp only [amountIn, hlim]
          rw [sub_self, sub_self, taxOf_nonpos rest (le_refl 0)]
          nlinarith [hrb.2]
        | some l =>
          simp only [amountIn, hlim]
          have hkey : t1 - min t1 l ≤ t2 - min t2 l := sub_min_mono h12
          have hmin : min t1 l ≤ min t2 l := min_le_min h12 (le_refl l)
          have hih := ih hrest hlrest hkey
          have hmul : min t1 l - min t1 l * b.rate ≤
              min t2 l - min t2 l * b.rate := by
            nlinarith [mul_nonneg (sub_nonneg.mpr hmin)
              (sub_nonneg.mpr hrb.2)]
          linarith

theorem default_table_valid : validRateTable DEFAULT_GHANA_TAX_RATES := by
  refine ⟨by simp [DEFAULT_GHANA_TAX_RATES], by simp [DEFAULT_GHANA_TAX_RATES],
    ?_, by norm_num [DEFAULT_GHANA_TAX_RATES],
    by norm_num [DEFAULT_GHANA_TAX_RATES]⟩
  intro b hb
  simp [DEFAULT_GHANA_TAX_RATES] at hb
  rcases hb with h | h | h | h | h | h | h <;> subst h <;> norm_num

theorem entriesOf_eq_specSteps (bs : List TaxBracket) :
    ∀ t : ℚ, (entriesOf bs t).map (fun e => (e.amount, e.tax)) =
      (specSteps bs t).map (fun e => (e.amountInBracket, e.bracketTax)) := by
  induction bs with
  | nil => intro t; simp [entriesOf, specSteps]
  | cons b rest ih =>
    intro t
    by_cases h : t ≤ 0
    · simp [entriesOf, specSteps, h]
    · cases hlim : b.limit with
      | none =>
        simp only [entriesOf, specSteps, h, ite_false, amountIn, hlim,
          List.map_cons]
        rw [ih]
      | some l =>
        simp only [entriesOf, specSteps, h, ite_false, amountIn, hlim,
          List.map_cons]
        rw [ih]

theorem taxOf_eq_specSum (bs : List TaxBracket) :
    ∀ t : ℚ, taxOf bs t = ((specSteps bs t).map SpecEntry.bracketTax).sum := by
  induction bs with
  | nil => intro t; simp [taxOf, specSteps]
  | cons b rest ih =>
    intro t
    by_cases h : t ≤ 0
    · simp [taxOf, specSteps, h]
    · cases hlim : b.limit with
      | none =>
        simp only [taxOf, specSteps, h, ite_false, amountIn, hlim,
          List.map_cons, List.sum_cons]
        rw [ih]
      | some l =>
        simp only [taxOf, specSteps, h, ite_false, amountIn, hlim,
          List.map_cons, List.sum_cons]
        rw [ih]

/-- Claim C1: conservation round-trip — for every non-negative gross
income and valid rate table, `netIncome + ssnit + totalTax` returned by
`calculateTax` equals the gross income exactly (over exact
arithmetic). -/
theorem conservation_roundtrip (g : ℚ) (T : TaxRates)
    (hg : 0 ≤ g) (hT : validRateTable T) :
    (calculateTax g T).netIncome + (calculateTax g T).ssnit +
      (calculateTax g T).totalTax = g := by
  rw [calculateTax_net, calculateTax_ssnit, calculateTax_totalTax]
  ring

theorem conservation_roundtrip_witness :
    ((0:ℚ) ≤ 5000 ∧ validRateTable DEFAULT_GHANA_TAX_RATES) ∧
    (calculateTax 5000 DEFAULT_GHANA_TAX_RATES).netIncome +
      (calculateTax 5000 DEFAULT_GHANA_TAX_RATES).ssnit +
      (calculateTax 5000 DEFAULT_GHANA_TAX_RATES).totalTax = 5000 :=
  ⟨⟨by norm_num, default_table_valid⟩,
    conservation_roundtrip 5000 DEFAULT_GHANA_TAX_RATES (by norm_num)
      default_table_valid⟩

/-- Claim C2: `calculateTax` implements the spec's Step 1-4 reference
algorithm (`specCompute`, transcribed from the spec's words): mandatory
deduction, taxable income, the bracket-by-bracket breakdown (amount and
tax of every emitted entry), accumulated total tax and net income all
agree, for every input. -/
theorem step_algorithm (g : ℚ) (T : TaxRates) :
    (calculateTax g T).ssnit = (specCompute g T).mandatoryDeduction ∧
    (calculateTax g T).taxableIncome = (specCompute g T).taxableIncome ∧
    (calculateTax g T).breakdown.map (fun e => (e.amount, e.tax)) =
      (specCompute g T).breakdown.map
        (fun e => (e.amountInBracket, e.bracketTax)) ∧
    (calculateTax g T).totalTax = (specCompute g T).totalTax ∧
    (calculateTax g T).netIncome = (specCompute g T).netIncome := by
  refine ⟨rfl, rfl, ?_, ?_, ?_⟩
  · rw [calculateTax_breakdown]
    exact entriesOf_eq_specSteps T.brackets (g - g * T.ssnitRate)
  · rw [calculateTax_totalTax]
    exact taxOf_eq_specSum T.brackets (g - g * T.ssnitRate)
  · rw [calculateTax_net]
    show _ = (g - g * T.ssnitRate) -
      ((specSteps T.brackets (g - g * T.ssnitRate)).map
        SpecEntry.bracketTax).sum
    rw [taxOf_eq_specSum]

/-- Claim C3: the concrete scenario — gross 5000 with the default Ghana
table gives SSNIT 275, taxable 4725, the five-entry breakdown consuming
490 then 110 then 130 then 3160 then 835, total tax 780.25 and net
income 3944.75. -/
theorem concrete_case_5000 :
    (calculateTax 5000 DEFAULT_GHANA_TAX_RATES).ssnit = 275 ∧
    (calculateTax 5000 DEFAULT_GHANA_TAX_RATES).taxableIncome = 4725 ∧
    (calculateTax 5000 DEFAULT_GHANA_TAX_RATES).breakdown =
      [ { bracket := .next 490, amount := 490, tax := 0 }
      , { bracket := .next 110, amount := 110, tax := 5.5 }
      , { bracket := .next 130, amount := 130, tax := 13 }
      , { bracket := .next 3160, amount := 3160, tax := 553 }
      , { bracket := .next 16110, amount := 835, tax := 208.75 } ] ∧
    (calculateTax 5000 DEFAULT_GHANA_TAX_RATES).totalTax = 780.25 ∧
    (calculateTax 5000 DEFAULT_GHANA_TAX_RATES).netIncome = 3944.75 := by
  norm_num [calculateTax, taxLoop, amountIn, labelOf, min_def,
    DEFAULT_GHANA_TAX_RATES]

/-- Claim C4: zero income — for every rate table, `calculateTax 0`
returns zero gross, SSNIT, taxable income, total tax and net income,
and an empty breakdown. -/
theorem zero_income (T : TaxRates) :
    (calculateTax 0 T).grossIncome = 0 ∧
    (calculateTax 0 T).ssnit = 0 ∧
    (calculateTax 0 T).taxableIncome = 0 ∧
    (calculateTax 0 T).totalTax = 0 ∧
    (calculateTax 0 T).netIncome = 0 ∧
    (calculateTax 0 T).breakdown = [] := by
  have h0 : (0:ℚ) - 0 * T.ssnitRate = 0 := by ring
  refine ⟨rfl, by simp [calculateTax_ssnit], by simp [calculateTax_taxable],
    ?_, ?_, ?_⟩
  · rw [calculateTax_totalTax, h0, taxOf_nonpos _ (le_refl (0:ℚ))]
  · rw [calculateTax_net, h0, taxOf_nonpos _ (le_refl (0:ℚ))]; ring
  · rw [calculateTax_breakdown, h0, entriesOf_nonpos _ (le_refl (0:ℚ))]

/-- Rate table used to refute claim C5 as stated: non-empty brackets,
unbounded last bracket, all rates and the mandatory rate in [0,1] —
but a negative bracket limit. -/
def badTable : TaxRates :=
  { ssnitRate := 0
  , year := "2024/2025"
  , brackets :=
      [ { limit := some (-10), rate := 0 }
      , { limit := none, rate := 1 } ]
  , source := none }

/-- Claim C5 as stated is false: `badTable` is a valid rate table in the
claim's sense (non-empty, unbounded last bracket, mandatory rate and all
bracket rates in [0,1]), the gross incomes 0 ≤ 1 are non-negative and
ordered, yet `calculateTax` gives net income 0 at gross 0 and net income
-10 at gross 1: `Math.min(remainingTaxable, -10)` makes the first
bracket contribute a negative amount, leaving 11 to be taxed at rate 1
by the unbounded bracket. -/
theorem monotonicity_counterexample :
    validRateTable badTable ∧ (0:ℚ) ≤ 0 ∧ (0:ℚ) ≤ 1 ∧
    ¬ ((calculateTax 0 badTable).netIncome ≤
        (calculateTax 1 badTable).netIncome) := by
  refine ⟨⟨by simp [badTable], by simp [badTable], ?_,
    by norm_num [badTable], by norm_num [badTable]⟩,
    le_refl 0, by norm_num, ?_⟩
  · intro b hb
    simp [badTable] at hb
    rcases hb with h | h <;> subst h <;> norm_num
  · norm_num [calculateTax, taxLoop, amountIn, min_def, badTable]

/-- Claim C5 (amended): monotonicity holds once the valid rate table is
additionally required to have non-negative bracket limits — for every
such table and all non-negative g1 ≤ g2, net income at g1 is at most net
income at g2. -/
theorem netIncome_monotone (g1 g2 : ℚ) (T : TaxRates)
    (hT : validRateTable T) (hlim : nonnegLimits T.brackets)
    (hg1 : 0 ≤ g1) (h12 : g1 ≤ g2) :
    (calculateTax g1 T).netIncome ≤ (calculateTax g2 T).netIncome := by
  obtain ⟨-, -, hr, hs0, hs1⟩ := hT
  rw [calculateTax_net, calculateTax_net]
  have hmono : g1 - g1 * T.ssnitRate ≤ g2 - g2 * T.ssnitRate := by
    nlinarith [mul_nonneg (sub_nonneg.mpr h12) (sub_nonneg.mpr hs1)]
  exact netOfTax_mono hr hlim hmono

theorem default_table_nonnegLimits :
    nonnegLimits DEFAULT_GHANA_TAX_RATES.brackets := by
  intro b hb
  simp [DEFAULT_GHANA_TAX_RATES] at hb
  rcases hb with h | h | h | h | h | h | h <;> subst h <;>
    simp [Option.all] <;> norm_num

theorem netIncome_monotone_witness :
    (validRateTable DEFAULT_GHANA_TAX_RATES ∧
      nonnegLimits DEFAULT_GHANA_TAX_RATES.brackets ∧
      (0:ℚ) ≤ 1000 ∧ (1000:ℚ) ≤ 2000) ∧
    (calculateTax 1000 DEFAULT_GHANA_TAX_RATES).netIncome ≤
      (calculateTax 2000 DEFAULT_GHANA_TAX_RATES).netIncome :=
  ⟨⟨default_table_valid, default_table_nonnegLimits, by norm_num,
      by norm_num⟩,
    netIncome_monotone 1000 2000 DEFAULT_GHANA_TAX_RATES
      default_table_valid default_table_nonnegLimits (by norm_num)
      (by norm_num)⟩

/-- Claim C6: period normalization — the income figure the `results`
memo passes to `calculateTax` (its `grossIncome` field) is the parsed
income divided by 12 when the annual toggle is set (an exact, unrounded
division: multiplying back by 12 recovers the parsed figure) and the
parsed income itself otherwise, with unparseable input treated as 0. -/
theorem period_normalization (p : Option ℚ) (ann : Bool) (T : TaxRates) :
    results p ann T =
      calculateTax (if ann then p.getD 0 / 12 else p.getD 0) T ∧
    results none ann T = calculateTax 0 T ∧
    12 * (results p true T).grossIncome = p.getD 0 := by
  refine ⟨rfl, by cases ann <;> simp [results], ?_⟩
  show 12 * (p.getD 0 / 12) = p.getD 0
  ring

/-- Claim C7: fallback determinism — with no configured credential
(variable absent, or the falsy empty string), `fetchLatestTaxRates`
returns exactly `DEFAULT_GHANA_TAX_RATES` whatever the service would
have done, and that table has no `source` field set. -/
theorem fallback_determinism (outcome : FetchOutcome) :
    fetchLatestTaxRates none outcome = DEFAULT_GHANA_TAX_RATES ∧
    fetchLatestTaxRates (some "") outcome = DEFAULT_GHANA_TAX_RATES ∧
    (fetchLatestTaxRates none outcome).source = none :=
  ⟨rfl, by simp [fetchLatestTaxRates], rfl⟩

/-- Claim C8: `fetchLatestTaxRates` never propagates an error — for
every credential and each failing service outcome (client threw, body
failed to parse, or parsed JSON lacking a `brackets` array) it returns
the hardcoded default table. -/
theorem fetch_error_fallback (key : Option String) (r : Option ℚ)
    (y : Option String) :
    fetchLatestTaxRates key .error = DEFAULT_GHANA_TAX_RATES ∧
    fetchLatestTaxRates key (.success none) = DEFAULT_GHANA_TAX_RATES ∧
    fetchLatestTaxRates key (.success (some ⟨r, y, none⟩)) =
      DEFAULT_GHANA_TAX_RATES := by
  cases key with
  | none => exact ⟨rfl, rfl, rfl⟩
  | some k => by_cases h : k = "" <;> simp [fetchLatestTaxRates, h]

/-- Claim C9: non-positive gross income — with a mandatory rate in
[0,1], `calculateTax` applies no bracket: empty breakdown, zero total
tax, and net income equal to taxable income equal to
`g * (1 - ssnitRate)`, which is non-positive. -/
theorem nonpositive_income (g : ℚ) (T : TaxRates)
    (hg : g ≤ 0) (h0 : 0 ≤ T.ssnitRate) (h1 : T.ssnitRate ≤ 1) :
    (calculateTax g T).breakdown = [] ∧
    (calculateTax g T).totalTax = 0 ∧
    (calculateTax g T).taxableIncome = g * (1 - T.ssnitRate) ∧
    (calculateTax g T).netIncome = g * (1 - T.ssnitRate) ∧
    (calculateTax g T).netIncome ≤ 0 := by
  have ht : g - g * T.ssnitRate ≤ 0 := by
    nlinarith [mul_nonneg (neg_nonneg.mpr hg) (sub_nonneg.mpr h1)]
  refine ⟨?_, ?_, ?_, ?_, ?_⟩
  · rw [calculateTax_breakdown, entriesOf_nonpos _ ht]
  · rw [calculateTax_totalTax, taxOf_nonpos _ ht]
  · rw [calculateTax_taxable]; ring
  · rw [calculateTax_net, taxOf_nonpos _ ht]; ring
  · rw [calculateTax_net, taxOf_nonpos _ ht]; linarith

theorem nonpositive_income_witness :
    ((-100:ℚ) ≤ 0 ∧ (0:ℚ) ≤ DEFAULT_GHANA_TAX_RATES.ssnitRate ∧
      DEFAULT_GHANA_TAX_RATES.ssnitRate ≤ 1) ∧
    ((calculateTax (-100) DEFAULT_GHANA_TAX_RATES).breakdown = [] ∧
      (calculateTax (-100) DEFAULT_GHANA_TAX_RATES).totalTax = 0 ∧
      (calculateTax (-100) DEFAULT_GHANA_TAX_RATES).taxableIncome =
        (-100) * (1 - DEFAULT_GHANA_TAX_RATES.ssnitRate) ∧
      (calculateTax (-100) DEFAULT_GHANA_TAX_RATES).netIncome =
        (-100) * (1 - DEFAULT_GHANA_TAX_RATES.ssnitRate) ∧
      (calculateTax (-100) DEFAULT_GHANA_TAX_RATES).netIncome ≤ 0) :=
  ⟨⟨by norm_num, by norm_num [DEFAULT_GHANA_TAX_RATES],
      by norm_num [DEFAULT_GHANA_TAX_RATES]⟩,
    nonpositive_income (-100) DEFAULT_GHANA_TAX_RATES (by norm_num)
      (by norm_num [DEFAULT_GHANA_TAX_RATES])
      (by norm_num [DEFAULT_GHANA_TAX_RATES])⟩

theorem sumLimits_nonneg (bs : List TaxBracket) (h : nonnegLimits bs) :
    0 ≤ sumLimits bs := by
  induction bs with
  | nil => simp [sumLimits]
  | cons b rest ih =>
    have hb0 : 0 ≤ b.limit.getD 0 := by
      cases hl : b.limit with
      | none => simp
      | some l =>
        simpa using nonnegLimits_some h (List.mem_cons_self b rest) hl
    have hrest : nonnegLimits rest :=
      fun b' hb' => h b' (List.mem_cons_of_mem b hb')
    have := ih hrest
    simp only [sumLimits, List.map_cons, List.sum_cons]
    have h2 : 0 ≤ (rest.map (fun b => b.limit.getD 0)).sum := this
    linarith

theorem exhaustionLoop (bs : List TaxBracket) :
    allFinite bs → nonnegLimits bs → ∀ t : ℚ, sumLimits bs < t →
      entriesOf bs t = bs.map expectedEntry ∧
      taxOf bs t = sumBracketTax bs := by
  induction bs with
  | nil => intro _ _ t _; simp [entriesOf, taxOf, sumBracketTax]
  | cons b rest ih =>
    intro hfin hlim t hbig
    obtain ⟨l, hl⟩ :=
      Option.isSome_iff_exists.mp (hfin b (List.mem_cons_self b rest))
    have hl0 : 0 ≤ l := nonnegLimits_some hlim (List.mem_cons_self b rest) hl
    have hrestfin : allFinite rest :=
      fun b' hb' => hfin b' (List.mem_cons_of_mem b hb')
    have hrestlim : nonnegLimits rest :=
      fun b' hb' => hlim b' (List.mem_cons_of_mem b hb')
    have hsum : sumLimits (b :: rest) = l + sumLimits rest := by
      simp [sumLimits, hl]
    have hsr : 0 ≤ sumLimits rest := sumLimits_nonneg rest hrestlim
    rw [hsum] at hbig
    have hlt : l < t := by linarith
    have ht : 0 < t := by linarith
    have hnot : ¬ t ≤ 0 := not_le.mpr ht
    have ha : amountIn b t = l := by
      simp [amountIn, hl, min_eq_right (le_of_lt hlt)]
    obtain ⟨ihe, iht⟩ := ih hrestfin hrestlim (t - l) (by linarith)
    constructor
    · simp only [entriesOf, hnot, ite_false, ha, ihe, List.map_cons]
      simp [expectedEntry, hl]
    · simp only [taxOf, hnot, ite_false, ha, iht]
      simp [sumBracketTax, hl]

/-- Claim C10: totality without an unbounded bracket — for a table whose
brackets all have finite non-negative limits (and non-negative rates),
when taxable income exceeds the total bracket width, `calculateTax`
still returns, with one full-width breakdown entry per bracket, total
tax the sum of limit times rate, and the excess left untaxed in net
income. -/
theorem finite_table_exhaustion (g : ℚ) (T : TaxRates)
    (hfin : allFinite T.brackets) (hlim : nonnegLimits T.brackets)
    (hr : ∀ b ∈ T.brackets, 0 ≤ b.rate)
    (hbig : sumLimits T.brackets < (calculateTax g T).taxableIncome) :
    (calculateTax g T).breakdown = T.brackets.map expectedEntry ∧
    (calculateTax g T).totalTax = sumBracketTax T.brackets ∧
    (calculateTax g T).netIncome =
      (calculateTax g T).taxableIncome - sumBracketTax T.brackets := by
  rw [calculateTax_taxable] at hbig
  obtain ⟨he, htx⟩ := exhaustionLoop T.brackets hfin hlim _ hbig
  exact ⟨by rw [calculateTax_breakdown, he],
    by rw [calculateTax_totalTax, htx],
    by rw [calculateTax_net, calculateTax_taxable, htx]⟩

/-- All-finite two-bracket table used to witness claim C10. -/
def finiteTable : TaxRates :=
  { ssnitRate := 0
  , year := "test"
  , brackets :=
      [ { limit := some 100, rate := 0.1 }
      , { limit := some 50, rate := 0.2 } ]
  , source := none }

theorem finiteTable_allFinite : allFinite finiteTable.brackets := by
  intro b hb
  simp [finiteTable] at hb
  rcases hb with h | h <;> subst h <;> simp

theorem finiteTable_nonnegLimits : nonnegLimits finiteTable.brackets := by
  intro b hb
  simp [finiteTable] at hb
  rcases hb with h | h <;> subst h <;> simp [Option.all] <;> norm_num

theorem finiteTable_rates_nonneg : ∀ b ∈ finiteTable.brackets, 0 ≤ b.rate := by
  intro b hb
  simp [finiteTable] at hb
  rcases hb with h | h <;> subst h <;> norm_num

theorem finiteTable_big :
    sumLimits finiteTable.brackets <
      (calculateTax 1000 finiteTable).taxableIncome := by
  norm_num [sumLimits, finiteTable, calculateTax_taxable]

theorem finite_table_exhaustion_witness :
    (allFinite finiteTable.brackets ∧ nonnegLimits finiteTable.brackets ∧
      sumLimits finiteTable.brackets <
        (calculateTax 1000 finiteTable).taxableIncome) ∧
    ((calculateTax 1000 finiteTable).breakdown =
        finiteTable.brackets.map expectedEntry ∧
      (calculateTax 1000 finiteTable).totalTax =
        sumBracketTax finiteTable.brackets ∧
      (calculateTax 1000 finiteTable).netIncome =
        (calculateTax 1000 finiteTable).taxableIncome -
          sumBracketTax finiteTable.brackets) :=
  ⟨⟨finiteTable_allFinite, finiteTable_nonnegLimits, finiteTable_big⟩,
    finite_table_exhaustion 1000 finiteTable finiteTable_allFinite
      finiteTable_nonnegLimits finiteTable_rates_nonneg finiteTable_big⟩
